import Mathlib

/-!
# chatapp-backend: connect / disconnect / send handlers

A shallow embedding of the three Lambda handlers of the repository
(`src/lambda/connect/main.go`, `src/lambda/disconnect/main.go`,
`src/lambda/send/main.go`).

The handlers are stateful: they call DynamoDB (the connection registry) and
the API Gateway Management API (the push transport).  We make that state
explicit:

* a `World` holds the contents of the connections table and the trace of the
  calls made to the two services so far, each with its outcome;
* an `Env` holds what the code does not decide: whether a service call fails
  (as a function of the whole world at the time of the call, so every
  sequence of outcomes can be expressed), what the index query returns, and
  the library codecs (`json.Unmarshal`, `json.Marshal`,
  `attributevalue.UnmarshalListOfMaps`).

A service call that returns an error leaves the table unchanged; a successful
`PutItem` replaces the item with the same primary key (`connectionId`), a
successful `DeleteItem` removes it.  Console logging (`fmt.Println`) is not
part of the model.
-/

namespace ChatApp

/-! ## Data model -/

/-- DynamoDB attribute values used by the handlers (`ddbtypes.AttributeValueMemberS`,
`ddbtypes.AttributeValueMemberN`). -/
inductive AttributeValue where
  | S (Value : String)
  | N (Value : String)
  deriving DecidableEq, Repr

/-- An item: `map[string]ddbtypes.AttributeValue`, as an association list. -/
abbrev Item := List (String × AttributeValue)

/-- The connections table. Its primary key is the attribute `connectionId`. -/
abbrev Table := List Item

/-- Primary key of an item. -/
def Item.key (it : Item) : Option AttributeValue :=
  it.lookup "connectionId"

/-- The entries of the table stored under a given connection id. -/
def Table.entries (t : Table) (connectionId : String) : List Item :=
  t.filter (fun it => it.key == some (AttributeValue.S connectionId))

/-- Effect of a successful `PutItem`: the item replaces whatever was stored
under the same primary key. -/
def Table.putItem (t : Table) (item : Item) : Table :=
  item :: t.filter (fun it => it.key != item.key)

/-- Effect of a successful `DeleteItem` with key `connectionId = S id`. -/
def Table.deleteItem (t : Table) (connectionId : String) : Table :=
  t.filter (fun it => it.key != some (AttributeValue.S connectionId))

/-- A consistent read of the index `roomId-index` with the key condition
`roomId = :r`. -/
def Table.queryRoomIndex (t : Table) (roomId : String) : List Item :=
  t.filter (fun it => it.lookup "roomId" == some (AttributeValue.S roomId))

/-- One error of a Go error tree, by the dynamic types `isGone` looks for. -/
inductive ErrNode where
  /-- An `*apimgmttypes.GoneException`; it implements `smithy.APIError`, and
  `ErrorCode()` is the override when set, else `"GoneException"` -/
  | goneException (ErrorCodeOverride : Option String)
  /-- A `*smithyhttp.ResponseError`; `none` is a nil `Response`, and a non-nil
  `Response` carries the status code of an HTTP response -/
  | responseError (StatusCode : Option Int)
  /-- Any other implementation of `smithy.APIError`, with its `ErrorCode()` -/
  | apiError (code : String)
  /-- Any other error (`context.DeadlineExceeded`, a network error, ...) -/
  | other (msg : String)
  deriving DecidableEq, Repr

/-- A non-nil Go `error`: the error itself followed by the errors it wraps, in
the order `errors.As` visits them (outermost first, pre-order). -/
abbrev GoError := List ErrNode

/-- The node has dynamic type `*apimgmttypes.GoneException`. -/
def ErrNode.isGoneException : ErrNode → Bool
  | .goneException _ => true
  | _ => false

/-- The node has dynamic type `*smithyhttp.ResponseError`. -/
def ErrNode.isResponseError : ErrNode → Bool
  | .responseError _ => true
  | _ => false

/-- Result of `ErrorCode()` when the node implements `smithy.APIError`. -/
def ErrNode.errorCode : ErrNode → Option String
  | .goneException (some c) => some c
  | .goneException none => some "GoneException"
  | .apiError c => some c
  | _ => none

/-- The node implements `smithy.APIError`. -/
def ErrNode.isAPIError (n : ErrNode) : Bool :=
  n.errorCode.isSome

/-- Go `errors.As`: the first error of the tree that matches the target type. -/
def errorsAs (err : GoError) (target : ErrNode → Bool) : Option ErrNode :=
  err.find? target

/-- The function `isGone` of `src/lambda/send/main.go`. -/
def isGone (err : GoError) : Bool :=
  if (errorsAs err ErrNode.isGoneException).isSome then
    true
  else if (match errorsAs err ErrNode.isResponseError with
      | some (.responseError (some code)) => code == 410
      | _ => false) then
    true
  else
    match errorsAs err ErrNode.isAPIError with
    | some apiErr => apiErr.errorCode == some "GoneException"
    | none => false

/-- A call made to DynamoDB or to the management API, with its outcome
(`err = none` is a nil error). -/
inductive Call where
  | Query (roomId : String) (err : Option String)
  | PutItem (item : Item) (err : Option String)
  | DeleteItem (connectionId : String) (err : Option String)
  | PostToConnection (connectionId : String) (data : String) (err : Option GoError)
  deriving DecidableEq, Repr

/-- The delivery attempt recorded by a call: addressee and payload. -/
def Call.postOf : Call → Option (String × String)
  | .PostToConnection connectionId data _ => some (connectionId, data)
  | _ => none

/-- The call is a `DeleteItem`. -/
def Call.isDelete : Call → Bool
  | .DeleteItem _ _ => true
  | _ => false

/-- The call removes the item from the table: it is a `DeleteItem` with the
item's key that returned no error. -/
def Call.removes (c : Call) (it : Item) : Bool :=
  match c with
  | .DeleteItem k none => it.key == some (AttributeValue.S k)
  | _ => false

/-- State shared by the handlers: the table and the calls made so far. -/
structure World where
  table : Table
  trace : List Call
  deriving DecidableEq, Repr

/-- Body of a send request (`In`). -/
structure In where
  Action : String
  RoomID : String
  Text : String
  UserID : String
  deriving DecidableEq, Repr

/-- A decoded registry entry (`Conn`). -/
structure Conn where
  ConnectionId : String
  RoomId : String
  deriving DecidableEq, Repr

/-- What the handlers read of `events.APIGatewayWebsocketProxyRequest`. -/
structure Request where
  ConnectionID : String
  Body : String
  deriving DecidableEq, Repr

/-- The fields the handlers set of `events.APIGatewayProxyResponse`. -/
structure APIGatewayProxyResponse where
  StatusCode : Int
  Body : String
  deriving DecidableEq, Repr

/-- What a handler invocation yields: the response, the Go error handed to the
Lambda runtime (`none` is nil), and the world it leaves. -/
structure Outcome where
  response : APIGatewayProxyResponse
  err : Option String
  world : World
  deriving DecidableEq, Repr

/-- Behaviour the handlers do not decide. -/
structure Env where
  /-- The codec `json.Unmarshal([]byte(body), &in)` on a zero `In`, its error dropped -/
  jsonUnmarshal : String → In
  /-- The codec `json.Marshal` of a `map[string]any` with string values -/
  jsonMarshal : List (String × String) → String
  /-- The call `ddbCli.Query` on `roomId-index`: an error text or the items -/
  query : World → String → Except String (List Item)
  /-- The codec `attributevalue.UnmarshalListOfMaps(items, &cons)` -/
  unmarshalListOfMaps : List Item → Except String (List Conn)
  /-- The error of `mgmtCli.PostToConnection` to a connection with a payload -/
  postToConnection : World → String → String → Option GoError
  /-- The error text of `ddbCli.PutItem`, `none` when it succeeds -/
  putItemErr : World → Item → Option String
  /-- The error text of `ddbCli.DeleteItem`, `none` when it succeeds -/
  deleteItemErr : World → String → Option String

/-! ## Registry calls -/

/-- The call `ddbCli.PutItem` with `Item: item`. -/
def ddbPutItem (env : Env) (w : World) (item : Item) : Option String × World :=
  let err := env.putItemErr w item
  (err,
    { table := match err with
        | none => w.table.putItem item
        | some _ => w.table
      trace := w.trace ++ [Call.PutItem item err] })

/-- The call `ddbCli.DeleteItem` with `Key: connectionId = S id`. -/
def ddbDeleteItem (env : Env) (w : World) (connectionId : String) : Option String × World :=
  let err := env.deleteItemErr w connectionId
  (err,
    { table := match err with
        | none => w.table.deleteItem connectionId
        | some _ => w.table
      trace := w.trace ++ [Call.DeleteItem connectionId err] })

/-! ## connect -/

/-- Instants are Unix nanoseconds; `time.Hour`. -/
def Hour : Int := 3600 * 1000000000

/-- The method `t.Unix()`: whole seconds since the epoch. -/
def unix (t : Int) : Int := t / 1000000000

/-- The decimal text `fmt.Sprintf("%d", n)`. -/
def sprintfD (n : Int) : String := toString n

/-- The item `connect` writes for a connection at instant `now`. -/
def Connect.item (now : Int) (connID : String) : Item :=
  [("connectionId", AttributeValue.S connID),
   ("roomId", AttributeValue.S "lobby"),
   ("ttl", AttributeValue.N (sprintfD (unix (now + 24 * Hour))))]

/-- The `handler` of `src/lambda/connect/main.go`; `now` is `time.Now()`. -/
def Connect.handler (env : Env) (now : Int) (w : World) (req : Request) : Outcome :=
  let connID := req.ConnectionID
  let r := ddbPutItem env w (Connect.item now connID)
  match r.1 with
  | some e => { response := { StatusCode := 500, Body := e }, err := none, world := r.2 }
  | none => { response := { StatusCode := 200, Body := "" }, err := none, world := r.2 }

/-! ## disconnect -/

/-- The `handler` of `src/lambda/disconnect/main.go`. -/
def Disconnect.handler (env : Env) (w : World) (req : Request) : Outcome :=
  let connID := req.ConnectionID
  let r := ddbDeleteItem env w connID
  match r.1 with
  | some e => { response := { StatusCode := 500, Body := e }, err := none, world := r.2 }
  | none => { response := { StatusCode := 200, Body := "" }, err := none, world := r.2 }

/-! ## send -/

/-- The function `resp` of `src/lambda/send/main.go`. -/
def Send.resp (code : Int) (body : String) : APIGatewayProxyResponse :=
  { StatusCode := code, Body := body }

/-- The room a request addresses: `"lobby"` when `RoomID` is empty. -/
def Send.room (i : In) : String :=
  if i.RoomID == "" then "lobby" else i.RoomID

/-- The map handed to `json.Marshal`. -/
def Send.message (roomID userID text : String) : List (String × String) :=
  [("type", "message"), ("roomId", roomID), ("userId", userID), ("text", text)]

/-- Body of the loop over the members: one `PostToConnection`, and a
`DeleteItem` when the error is classified gone. -/
def Send.deliver (env : Env) (payload : String) (w : World) (c : Conn) : World :=
  let postErr := env.postToConnection w c.ConnectionId payload
  let w1 : World :=
    { w with trace := w.trace ++ [Call.PostToConnection c.ConnectionId payload postErr] }
  match postErr with
  | none => w1
  | some e =>
    if isGone e then (ddbDeleteItem env w1 c.ConnectionId).2
    else w1

/-- The `handler` of `src/lambda/send/main.go`. -/
def Send.handler (env : Env) (w : World) (req : Request) : Outcome :=
  let in0 := env.jsonUnmarshal req.Body
  let roomID := Send.room in0
  match env.query w roomID with
  | .error e =>
    { response := Send.resp 500 e, err := none,
      world := { w with trace := w.trace ++ [Call.Query roomID (some e)] } }
  | .ok items =>
    let w1 : World := { w with trace := w.trace ++ [Call.Query roomID none] }
    match env.unmarshalListOfMaps items with
    | .error e => { response := Send.resp 500 e, err := none, world := w1 }
    | .ok cons =>
      let payload := env.jsonMarshal (Send.message roomID in0.UserID in0.Text)
      let w2 := cons.foldl (Send.deliver env payload) w1
      { response := Send.resp 200 "ok", err := none, world := w2 }

/-! ## Sample environments -/

/-- Text of a request body without `roomId`. -/
def Sample.bodyNoRoom : String :=
  "\x7b\"action\":\"message\",\"text\":\"hi\",\"userId\":\"u1\"\x7d"

/-- Text of the same request with `roomId` set to `lobby`. -/
def Sample.bodyLobby : String :=
  "\x7b\"action\":\"message\",\"roomId\":\"lobby\",\"text\":\"hi\",\"userId\":\"u1\"\x7d"

/-- What `json.Unmarshal` yields on the two sample bodies (and the zero `In`
on any other text). -/
def Sample.jsonUnmarshal (body : String) : In :=
  if body = Sample.bodyNoRoom then
    { Action := "message", RoomID := "", Text := "hi", UserID := "u1" }
  else if body = Sample.bodyLobby then
    { Action := "message", RoomID := "lobby", Text := "hi", UserID := "u1" }
  else { Action := "", RoomID := "", Text := "", UserID := "" }

/-- A stand-in encoder: the pairs `key=value`, joined by `;`. -/
def Sample.jsonMarshal (m : List (String × String)) : String :=
  String.intercalate ";" (m.map (fun kv => kv.1 ++ "=" ++ kv.2))

/-- String attribute of an item, empty when absent or not a string. -/
def Sample.getS (it : Item) (name : String) : String :=
  match it.lookup name with
  | some (AttributeValue.S v) => v
  | _ => ""

/-- Decoding of items whose attributes are strings. -/
def Sample.unmarshalListOfMaps (items : List Item) : Except String (List Conn) :=
  .ok (items.map (fun it =>
    { ConnectionId := Sample.getS it "connectionId", RoomId := Sample.getS it "roomId" }))

/-- Error of a delivery to a connection that no longer exists: the operation
error, the HTTP response error with status 410, the modelled exception. -/
def Sample.goneErr : GoError :=
  [ErrNode.other "operation error ApiGatewayManagementApi: PostToConnection",
   ErrNode.responseError (some 410),
   ErrNode.goneException none]

/-- Error of a delivery that timed out. -/
def Sample.timeoutErr : GoError :=
  [ErrNode.other "operation error ApiGatewayManagementApi: PostToConnection",
   ErrNode.other "context deadline exceeded"]

/-- Error of a throttled delivery. -/
def Sample.throttledErr : GoError :=
  [ErrNode.other "operation error ApiGatewayManagementApi: PostToConnection",
   ErrNode.responseError (some 429),
   ErrNode.apiError "LimitExceededException"]

/-- An environment in which the registry is available and reads are
consistent, connection `B` is gone and connection `T` times out. -/
def Sample.env : Env where
  jsonUnmarshal := Sample.jsonUnmarshal
  jsonMarshal := Sample.jsonMarshal
  query := fun w r => .ok (w.table.queryRoomIndex r)
  unmarshalListOfMaps := Sample.unmarshalListOfMaps
  postToConnection := fun _ connectionId _ =>
    if connectionId = "B" then some Sample.goneErr
    else if connectionId = "T" then some Sample.timeoutErr
    else none
  putItemErr := fun _ _ => none
  deleteItemErr := fun _ _ => none

/-- The sample environment with an unavailable registry: every registry call
returns an error. -/
def Sample.envDown : Env :=
  { Sample.env with
    query := fun _ _ => .error "registry unavailable"
    putItemErr := fun _ _ => some "registry unavailable"
    deleteItemErr := fun _ _ => some "registry unavailable" }

/-- The sample environment in which deletes fail but reads succeed. -/
def Sample.envNoDelete : Env :=
  { Sample.env with deleteItemErr := fun _ _ => some "registry unavailable" }

/-- The sample environment in which the first registry delete of an
invocation history fails and every later one succeeds. -/
def Sample.envFlaky : Env :=
  { Sample.env with
    deleteItemErr := fun w _ =>
      if w.trace.isEmpty then some "registry unavailable" else none }

/-- A registry entry in room `lobby`. -/
def Sample.entry (connectionId : String) : Item :=
  [("connectionId", AttributeValue.S connectionId),
   ("roomId", AttributeValue.S "lobby"),
   ("ttl", AttributeValue.N "1700086400")]

/-- Connections `A`, `B`, `C` registered in `lobby`, no call made yet. -/
def Sample.world : World :=
  { table := [Sample.entry "A", Sample.entry "B", Sample.entry "C"], trace := [] }

/-- Connections `A`, `T`, `C` registered in `lobby`, no call made yet. -/
def Sample.worldT : World :=
  { table := [Sample.entry "A", Sample.entry "T", Sample.entry "C"], trace := [] }

/-! ## Error classification -/

/-- The first clause of `isGone`: some error of the tree is a gone exception. -/
theorem errorsAs_gone_isSome (err : GoError) :
    (errorsAs err ErrNode.isGoneException).isSome = true ↔
      ∃ n ∈ err, n.isGoneException = true := by
  unfold errorsAs
  rw [List.find?_isSome]

/-- What `isGone` computes, clause by clause. -/
theorem isGone_eq_true_iff (err : GoError) :
    isGone err = true ↔
      (∃ n ∈ err, n.isGoneException = true) ∨
      errorsAs err ErrNode.isResponseError = some (ErrNode.responseError (some 410)) ∨
      (∃ n, errorsAs err ErrNode.isAPIError = some n ∧
        n.errorCode = some "GoneException") := by
  rw [← errorsAs_gone_isSome]
  unfold isGone
  by_cases h1 : (errorsAs err ErrNode.isGoneException).isSome = true
  · simp [h1]
  · simp only [h1, if_false, false_or, Bool.false_eq_true]
    have h2 : (match errorsAs err ErrNode.isResponseError with
        | some (ErrNode.responseError (some code)) => code == 410
        | _ => false) = true ↔
        errorsAs err ErrNode.isResponseError = some (ErrNode.responseError (some 410)) := by
      cases hr : errorsAs err ErrNode.isResponseError with
      | none => simp
      | some n =>
        cases n with
        | responseError sc =>
          cases sc with
          | none => simp
          | some code => simp
        | goneException o => simp
        | apiError c => simp
        | other m => simp
    by_cases h3 : (match errorsAs err ErrNode.isResponseError with
        | some (ErrNode.responseError (some code)) => code == 410
        | _ => false) = true
    · simp only [h3, if_true, true_iff]
      exact Or.inl (h2.mp h3)
    · simp only [h3, if_false, Bool.false_eq_true]
      have h3' := mt h2.mpr h3
      cases ha : errorsAs err ErrNode.isAPIError with
      | none => simp [h3']
      | some n => simp [h3']

/-- An error found by `errors.As` belongs to the tree and matches the target. -/
theorem errorsAs_some (err : GoError) (target : ErrNode → Bool) (n : ErrNode)
    (h : errorsAs err target = some n) : n ∈ err ∧ target n = true :=
  ⟨List.mem_of_find?_eq_some h, List.find?_some h⟩

/-- On an error that `isGone` does not classify as gone, the loop body records
the delivery attempt and nothing else. -/
theorem deliver_of_not_gone (env : Env) (payload : String) (w : World) (c : Conn)
    (err : GoError) (hpost : env.postToConnection w c.ConnectionId payload = some err)
    (hng : isGone err = false) :
    Send.deliver env payload w c =
      { w with trace := w.trace ++
          [Call.PostToConnection c.ConnectionId payload (some err)] } := by
  unfold Send.deliver
  simp [hpost, hng]

/-- C10 (amended): `isGone err` is true exactly when the error tree contains a
gone exception, or the first HTTP response error of the tree (the one
`errors.As` finds) has a non-nil response with status 410, or the first API
error of the tree has the error code `GoneException`.  Hence an error whose
tree holds no gone exception, no response error with status 410 and no API
error with code `GoneException` (a timeout, throttling, ...) is not gone, and
on an error that is not gone the send loop only records the delivery attempt:
no delete is issued and the table is unchanged. -/
theorem isGone_narrow (err : GoError) :
    (isGone err = true ↔
      (∃ n ∈ err, n.isGoneException = true) ∨
      errorsAs err ErrNode.isResponseError = some (ErrNode.responseError (some 410)) ∨
      (∃ n, errorsAs err ErrNode.isAPIError = some n ∧
        n.errorCode = some "GoneException")) ∧
    ((∀ n ∈ err, n.isGoneException = false ∧ n ≠ ErrNode.responseError (some 410) ∧
        n.errorCode ≠ some "GoneException") → isGone err = false) ∧
    (isGone err = false →
      ∀ (env : Env) (payload : String) (w : World) (c : Conn),
        env.postToConnection w c.ConnectionId payload = some err →
        (Send.deliver env payload w c).table = w.table ∧
        (Send.deliver env payload w c).trace = w.trace ++
          [Call.PostToConnection c.ConnectionId payload (some err)]) := by
  refine ⟨isGone_eq_true_iff err, ?_, ?_⟩
  · intro hall
    by_contra hne
    have ht : isGone err = true := by
      cases hg : isGone err
      · exact absurd hg hne
      · rfl
    rcases (isGone_eq_true_iff err).mp ht with ⟨n, hn, hgone⟩ | hresp | ⟨n, hfind, hcode⟩
    · have := (hall n hn).1
      rw [hgone] at this
      exact Bool.noConfusion this
    · have hmem := (errorsAs_some err _ _ hresp).1
      exact (hall _ hmem).2.1 rfl
    · have hmem := (errorsAs_some err _ _ hfind).1
      exact (hall _ hmem).2.2 hcode
  · intro hng env payload w c hpost
    rw [deliver_of_not_gone env payload w c err hpost hng]
    exact ⟨rfl, rfl⟩

/-- C10, at concrete errors: a timeout and a throttled delivery are not gone
and leave the registry as it was; a delivery answered 410 is gone. -/
theorem isGone_narrow_witness :
    isGone Sample.timeoutErr = false ∧ isGone Sample.throttledErr = false ∧
    isGone Sample.goneErr = true ∧
    (Send.deliver Sample.env "m" Sample.worldT
        { ConnectionId := "T", RoomId := "lobby" }).table = Sample.worldT.table ∧
    (Send.deliver Sample.env "m" Sample.worldT
        { ConnectionId := "T", RoomId := "lobby" }).trace =
      [Call.PostToConnection "T" "m" (some Sample.timeoutErr)] :=
  ⟨(isGone_narrow Sample.timeoutErr).2.1 (by decide),
   (isGone_narrow Sample.throttledErr).2.1 (by decide),
   (isGone_narrow Sample.goneErr).1.mpr (Or.inl ⟨ErrNode.goneException none, by decide, rfl⟩),
   ((isGone_narrow Sample.timeoutErr).2.2 (by decide) Sample.env "m" Sample.worldT
      { ConnectionId := "T", RoomId := "lobby" } (by decide)).1,
   ((isGone_narrow Sample.timeoutErr).2.2 (by decide) Sample.env "m" Sample.worldT
      { ConnectionId := "T", RoomId := "lobby" } (by decide)).2⟩

/-- C10 as stated fails: `errors.As` stops at the first error of the wanted
type. A tree whose first response error has status 500 and which also holds a
response error with status 410 is not classified gone; likewise a tree whose
first API error is not `GoneException` but which wraps one that is. -/
theorem isGone_contains_counterexample :
    (ErrNode.responseError (some 410) ∈
        [ErrNode.responseError (some 500), ErrNode.responseError (some 410)] ∧
      isGone [ErrNode.responseError (some 500), ErrNode.responseError (some 410)] = false) ∧
    (ErrNode.apiError "GoneException" ∈
        [ErrNode.apiError "ThrottlingException", ErrNode.apiError "GoneException"] ∧
      (ErrNode.apiError "GoneException").errorCode = some "GoneException" ∧
      isGone [ErrNode.apiError "ThrottlingException", ErrNode.apiError "GoneException"] = false) := by
  decide

/-! ## connect and disconnect -/

/-- The entries stored under the key of a just written item are that item. -/
theorem entries_putItem (t : Table) (item : Item) (connectionId : String)
    (hkey : item.key = some (AttributeValue.S connectionId)) :
    (t.putItem item).entries connectionId = [item] := by
  unfold Table.putItem Table.entries
  rw [List.filter_cons]
  simp only [hkey, beq_self_eq_true, if_true, List.filter_filter]
  congr 1
  rw [List.filter_eq_nil_iff]
  intro a _
  cases hk : (a.key == some (AttributeValue.S connectionId)) <;> simp [bne, hk]

/-- A put leaves every item stored under another key as it was. -/
theorem putItem_frame (t : Table) (item : Item) :
    (t.putItem item).filter (fun it => it.key != item.key) =
      t.filter (fun it => it.key != item.key) := by
  unfold Table.putItem
  rw [List.filter_cons]
  simp [bne]

/-- After a delete no entry is stored under the deleted key. -/
theorem entries_deleteItem (t : Table) (connectionId : String) :
    (t.deleteItem connectionId).entries connectionId = [] := by
  unfold Table.deleteItem Table.entries
  rw [List.filter_filter, List.filter_eq_nil_iff]
  intro a _
  cases hk : (a.key == some (AttributeValue.S connectionId)) <;> simp [bne, hk]

/-- A delete leaves every item stored under another key as it was. -/
theorem deleteItem_frame (t : Table) (connectionId : String) :
    (t.deleteItem connectionId).filter
        (fun it => it.key != some (AttributeValue.S connectionId)) =
      t.filter (fun it => it.key != some (AttributeValue.S connectionId)) := by
  unfold Table.deleteItem
  rw [List.filter_filter]
  simp

/-- Deleting a key that has no entry changes nothing. -/
theorem deleteItem_of_entries_nil (t : Table) (connectionId : String)
    (h : t.entries connectionId = []) : t.deleteItem connectionId = t := by
  unfold Table.deleteItem
  unfold Table.entries at h
  rw [List.filter_eq_nil_iff] at h
  rw [List.filter_eq_self]
  intro a ha
  have := h a ha
  simpa [bne] using this

/-- The expiry written by connect: the Unix second of the invocation plus
86400. -/
theorem unix_add_day (now : Int) : unix (now + 24 * Hour) = unix now + 86400 := by
  unfold unix Hour
  omega

/-- The key of the item connect writes is the connection id. -/
theorem connect_item_key (now : Int) (connID : String) :
    (Connect.item now connID).key = some (AttributeValue.S connID) := by
  simp [Connect.item, Item.key, List.lookup]

/-- The world a successful connect leaves. -/
theorem connect_world_of_ok (env : Env) (now : Int) (w : World) (req : Request)
    (hok : env.putItemErr w (Connect.item now req.ConnectionID) = none) :
    (Connect.handler env now w req).world.table =
        w.table.putItem (Connect.item now req.ConnectionID) ∧
      (Connect.handler env now w req).response = { StatusCode := 200, Body := "" } := by
  unfold Connect.handler ddbPutItem
  simp [hok]

/-- C7: after a successful Connect the registry holds exactly one entry for
the connection id, the item with `roomId` `lobby` and `ttl` the Unix second of
the invocation plus 86400 (24 hours); every item stored under another key is
unchanged; and a second successful Connect for the same id, at a later
instant, leaves exactly one entry, the one of the second call. -/
theorem connect_registers (env : Env) (now : Int) (w : World) (req : Request)
    (hok : env.putItemErr w (Connect.item now req.ConnectionID) = none) :
    (Connect.handler env now w req).response.StatusCode = 200 ∧
    (Connect.handler env now w req).world.table.entries req.ConnectionID =
      [[("connectionId", AttributeValue.S req.ConnectionID),
        ("roomId", AttributeValue.S "lobby"),
        ("ttl", AttributeValue.N (sprintfD (unix now + 86400)))]] ∧
    ((Connect.handler env now w req).world.table.entries req.ConnectionID).length = 1 ∧
    (Connect.handler env now w req).world.table.filter
        (fun it => it.key != some (AttributeValue.S req.ConnectionID)) =
      w.table.filter (fun it => it.key != some (AttributeValue.S req.ConnectionID)) ∧
    (∀ other : String, other ≠ req.ConnectionID →
      (Connect.handler env now w req).world.table.entries other = w.table.entries other) ∧
    (∀ now2 : Int,
      env.putItemErr (Connect.handler env now w req).world
          (Connect.item now2 req.ConnectionID) = none →
      (Connect.handler env now2 (Connect.handler env now w req).world req).world.table.entries
          req.ConnectionID =
        [[("connectionId", AttributeValue.S req.ConnectionID),
          ("roomId", AttributeValue.S "lobby"),
          ("ttl", AttributeValue.N (sprintfD (unix now2 + 86400)))]]) := by
  have hitem : ∀ t : Int, Connect.item t req.ConnectionID =
      [("connectionId", AttributeValue.S req.ConnectionID),
        ("roomId", AttributeValue.S "lobby"),
        ("ttl", AttributeValue.N (sprintfD (unix t + 86400)))] := by
    intro t
    simp [Connect.item, unix_add_day]
  obtain ⟨htab, hresp⟩ := connect_world_of_ok env now w req hok
  have hent := entries_putItem w.table _ _ (connect_item_key now req.ConnectionID)
  have hframe := putItem_frame w.table (Connect.item now req.ConnectionID)
  rw [connect_item_key] at hframe
  refine ⟨by rw [hresp], ?_, ?_, ?_, ?_, ?_⟩
  · rw [htab, hent, hitem]
  · rw [htab, hent]; rfl
  · rw [htab]; exact hframe
  · intro other hne
    rw [htab]
    unfold Table.entries
    have h1 : ∀ t : Table, t.filter (fun it => it.key == some (AttributeValue.S other)) =
        (t.filter (fun it => it.key != some (AttributeValue.S req.ConnectionID))).filter
          (fun it => it.key == some (AttributeValue.S other)) := by
      intro t
      rw [List.filter_filter]
      apply List.filter_congr
      intro a _
      cases hk : (a.key == some (AttributeValue.S other))
      · simp
      · have := beq_iff_eq.mp hk
        simp [this, bne, hne]
    rw [h1 (w.table.putItem _), h1 w.table, hframe]
  · intro now2 hok2
    obtain ⟨htab2, _⟩ := connect_world_of_ok env now2 _ req hok2
    rw [htab2, entries_putItem _ _ _ (connect_item_key now2 req.ConnectionID), hitem]

/-- C7, at a concrete input: connection `B`, already registered, connects
again at 2023-11-14T22:13:20.123456789Z. -/
theorem connect_registers_witness :
    (Connect.handler Sample.env 1700000000123456789 Sample.world
        { ConnectionID := "B", Body := "" }).world.table.entries "B" =
      [[("connectionId", AttributeValue.S "B"),
        ("roomId", AttributeValue.S "lobby"),
        ("ttl", AttributeValue.N "1700086400")]] :=
  (connect_registers Sample.env 1700000000123456789 Sample.world
    { ConnectionID := "B", Body := "" } (by decide)).2.1

/-- The world and response a disconnect leaves when the delete succeeds. -/
theorem disconnect_of_ok (env : Env) (w : World) (req : Request)
    (hok : env.deleteItemErr w req.ConnectionID = none) :
    (Disconnect.handler env w req).world.table = w.table.deleteItem req.ConnectionID ∧
      (Disconnect.handler env w req).response = { StatusCode := 200, Body := "" } ∧
      (Disconnect.handler env w req).err = none := by
  unfold Disconnect.handler ddbDeleteItem
  simp [hok]

/-- The table a disconnect leaves when the delete fails. -/
theorem disconnect_of_err (env : Env) (w : World) (req : Request) (e : String)
    (herr : env.deleteItemErr w req.ConnectionID = some e) :
    (Disconnect.handler env w req).world.table = w.table := by
  unfold Disconnect.handler ddbDeleteItem
  simp [herr]

/-- C8 (amended): Disconnect issues exactly one registry call, a point delete
keyed by the connection id. Whatever that delete returns, every item stored
under another key is unchanged, and when the id had no entry the table is
unchanged. When the delete returns no error: the status is 200 (also when the
id had no entry) and the Go error is nil, no entry is left under the id, and
a second Disconnect whose delete returns no error either leaves the same
table and returns the same response as the first. -/
theorem disconnect_idempotent (env : Env) (w : World) (req : Request) :
    (Disconnect.handler env w req).world.trace =
      w.trace ++ [Call.DeleteItem req.ConnectionID (env.deleteItemErr w req.ConnectionID)] ∧
    (Disconnect.handler env w req).world.table.filter
        (fun it => it.key != some (AttributeValue.S req.ConnectionID)) =
      w.table.filter (fun it => it.key != some (AttributeValue.S req.ConnectionID)) ∧
    (w.table.entries req.ConnectionID = [] →
      (Disconnect.handler env w req).world.table = w.table) ∧
    (env.deleteItemErr w req.ConnectionID = none →
      (Disconnect.handler env w req).response.StatusCode = 200 ∧
      (Disconnect.handler env w req).err = none ∧
      (Disconnect.handler env w req).world.table.entries req.ConnectionID = [] ∧
      (env.deleteItemErr (Disconnect.handler env w req).world req.ConnectionID = none →
        (Disconnect.handler env (Disconnect.handler env w req).world req).world.table =
          (Disconnect.handler env w req).world.table ∧
        (Disconnect.handler env (Disconnect.handler env w req).world req).response =
          (Disconnect.handler env w req).response ∧
        (Disconnect.handler env (Disconnect.handler env w req).world req).err =
          (Disconnect.handler env w req).err)) := by
  refine ⟨?_, ?_, ?_, ?_⟩
  · unfold Disconnect.handler ddbDeleteItem
    cases h : env.deleteItemErr w req.ConnectionID <;> simp [h]
  · cases h : env.deleteItemErr w req.ConnectionID with
    | none => rw [(disconnect_of_ok env w req h).1]; exact deleteItem_frame _ _
    | some e => rw [disconnect_of_err env w req e h]
  · intro hnil
    cases h : env.deleteItemErr w req.ConnectionID with
    | none =>
      rw [(disconnect_of_ok env w req h).1]
      exact deleteItem_of_entries_nil _ _ hnil
    | some e => rw [disconnect_of_err env w req e h]
  · intro hok
    obtain ⟨htab, hresp, herr⟩ := disconnect_of_ok env w req hok
    refine ⟨by rw [hresp], herr, ?_, ?_⟩
    · rw [htab]; exact entries_deleteItem _ _
    · intro hok2
      obtain ⟨htab2, hresp2, herr2⟩ := disconnect_of_ok env _ req hok2
      refine ⟨?_, by rw [hresp2, hresp], by rw [herr2, herr]⟩
      rw [htab2]
      apply deleteItem_of_entries_nil
      rw [htab]
      exact entries_deleteItem _ _

/-- C8 as stated fails when the registry delete returns an error. With the
registry unavailable, disconnecting the unknown id `Z` returns 500, not 200,
and disconnecting `B` keeps its entry. With a delete that fails the first
time and succeeds afterwards, running Disconnect once for `B` returns 500 and
keeps the entry, while running it twice ends with status 200 and the entry
removed. -/
theorem disconnect_unavailable_counterexample :
    (Sample.world.table.entries "Z" = [] ∧
      (Disconnect.handler Sample.envDown Sample.world
          { ConnectionID := "Z", Body := "" }).response.StatusCode = 500) ∧
    (Sample.world.table.entries "B" = [Sample.entry "B"] ∧
      (Disconnect.handler Sample.envDown Sample.world
          { ConnectionID := "B", Body := "" }).world.table.entries "B" =
        [Sample.entry "B"]) ∧
    ((Disconnect.handler Sample.envFlaky Sample.world
          { ConnectionID := "B", Body := "" }).response.StatusCode = 500 ∧
      (Disconnect.handler Sample.envFlaky Sample.world
          { ConnectionID := "B", Body := "" }).world.table =
        [Sample.entry "A", Sample.entry "B", Sample.entry "C"] ∧
      (Disconnect.handler Sample.envFlaky
          (Disconnect.handler Sample.envFlaky Sample.world
            { ConnectionID := "B", Body := "" }).world
          { ConnectionID := "B", Body := "" }).response.StatusCode = 200 ∧
      (Disconnect.handler Sample.envFlaky
          (Disconnect.handler Sample.envFlaky Sample.world
            { ConnectionID := "B", Body := "" }).world
          { ConnectionID := "B", Body := "" }).world.table =
        [Sample.entry "A", Sample.entry "C"]) := by
  decide

/-- C8, at concrete inputs: disconnecting `B` removes its entry and keeps `A`
and `C`; disconnecting the unknown id `Z` returns 200 and changes nothing. -/
theorem disconnect_idempotent_witness :
    (Disconnect.handler Sample.env Sample.world
        { ConnectionID := "B", Body := "" }).world.table =
      [Sample.entry "A", Sample.entry "C"] ∧
    (Disconnect.handler Sample.env Sample.world
        { ConnectionID := "Z", Body := "" }).response.StatusCode = 200 ∧
    (Disconnect.handler Sample.env Sample.world
        { ConnectionID := "Z", Body := "" }).world.table = Sample.world.table :=
  ⟨by decide,
   ((disconnect_idempotent Sample.env Sample.world
      { ConnectionID := "Z", Body := "" }).2.2.2 (by decide)).1,
   (disconnect_idempotent Sample.env Sample.world
      { ConnectionID := "Z", Body := "" }).2.2.1 (by decide)⟩

/-- C9: Connect returns 200 exactly when its `PutItem` succeeded and 500
exactly when it returned an error, and Disconnect likewise for its
`DeleteItem`; no other status is produced, the Go error is nil, each handler
makes exactly one registry call, and when that call fails the table is
unchanged and the response body is the error text. -/
theorem connect_disconnect_binary_status (env : Env) (now : Int) (w : World) (req : Request) :
    (((Connect.handler env now w req).response.StatusCode = 200 ↔
        env.putItemErr w (Connect.item now req.ConnectionID) = none) ∧
      ((Connect.handler env now w req).response.StatusCode = 500 ↔
        env.putItemErr w (Connect.item now req.ConnectionID) ≠ none) ∧
      ((Connect.handler env now w req).response.StatusCode = 200 ∨
        (Connect.handler env now w req).response.StatusCode = 500) ∧
      (Connect.handler env now w req).err = none ∧
      (Connect.handler env now w req).world.trace =
        w.trace ++ [Call.PutItem (Connect.item now req.ConnectionID)
          (env.putItemErr w (Connect.item now req.ConnectionID))] ∧
      (∀ e, env.putItemErr w (Connect.item now req.ConnectionID) = some e →
        (Connect.handler env now w req).response = { StatusCode := 500, Body := e } ∧
        (Connect.handler env now w req).world.table = w.table)) ∧
    (((Disconnect.handler env w req).response.StatusCode = 200 ↔
        env.deleteItemErr w req.ConnectionID = none) ∧
      ((Disconnect.handler env w req).response.StatusCode = 500 ↔
        env.deleteItemErr w req.ConnectionID ≠ none) ∧
      ((Disconnect.handler env w req).response.StatusCode = 200 ∨
        (Disconnect.handler env w req).response.StatusCode = 500) ∧
      (Disconnect.handler env w req).err = none ∧
      (Disconnect.handler env w req).world.trace =
        w.trace ++ [Call.DeleteItem req.ConnectionID
          (env.deleteItemErr w req.ConnectionID)] ∧
      (∀ e, env.deleteItemErr w req.ConnectionID = some e →
        (Disconnect.handler env w req).response = { StatusCode := 500, Body := e } ∧
        (Disconnect.handler env w req).world.table = w.table)) := by
  constructor
  · unfold Connect.handler ddbPutItem
    cases h : env.putItemErr w (Connect.item now req.ConnectionID) <;> simp [h]
  · unfold Disconnect.handler ddbDeleteItem
    cases h : env.deleteItemErr w req.ConnectionID <;> simp [h]

/-- C9, at concrete inputs: with the registry unavailable both handlers
return 500 with the error text and leave the table as it was. -/
theorem connect_disconnect_binary_status_witness :
    (Connect.handler Sample.envDown 1700000000123456789 Sample.world
        { ConnectionID := "D", Body := "" }).response =
      { StatusCode := 500, Body := "registry unavailable" } ∧
    (Disconnect.handler Sample.envDown Sample.world
        { ConnectionID := "D", Body := "" }).world.table = Sample.world.table :=
  ⟨((connect_disconnect_binary_status Sample.envDown 1700000000123456789 Sample.world
      { ConnectionID := "D", Body := "" }).1.2.2.2.2.2 "registry unavailable" (by decide)).1,
   ((connect_disconnect_binary_status Sample.envDown 1700000000123456789 Sample.world
      { ConnectionID := "D", Body := "" }).2.2.2.2.2.2 "registry unavailable" (by decide)).2⟩

/-! ## send: the loop over the members -/

/-- In a concatenation of traces each of which follows every gone delivery by
a delete of the same key, every gone delivery is followed by such a delete. -/
theorem prune_append (a b : List Call)
    (ha : ∀ i id d e, a[i]? = some (Call.PostToConnection id d (some e)) →
      isGone e = true → ∃ derr, a[i + 1]? = some (Call.DeleteItem id derr))
    (hb : ∀ i id d e, b[i]? = some (Call.PostToConnection id d (some e)) →
      isGone e = true → ∃ derr, b[i + 1]? = some (Call.DeleteItem id derr)) :
    ∀ i id d e, (a ++ b)[i]? = some (Call.PostToConnection id d (some e)) →
      isGone e = true → ∃ derr, (a ++ b)[i + 1]? = some (Call.DeleteItem id derr) := by
  intro i id d e hi hg
  by_cases hlt : i < a.length
  · rw [List.getElem?_append_left hlt] at hi
    obtain ⟨derr, hd⟩ := ha i id d e hi hg
    have hlt2 : i + 1 < a.length := (List.getElem?_eq_some.mp hd).1
    exact ⟨derr, by rw [List.getElem?_append_left hlt2]; exact hd⟩
  · have hle : a.length ≤ i := Nat.le_of_not_lt hlt
    rw [List.getElem?_append_right hle] at hi
    obtain ⟨derr, hd⟩ := hb (i - a.length) id d e hi hg
    refine ⟨derr, ?_⟩
    rw [List.getElem?_append_right (Nat.le_succ_of_le hle)]
    have : i + 1 - a.length = i - a.length + 1 := by omega
    rw [this]; exact hd

/-- One pass of the loop body: the calls it makes and the table it leaves. -/
theorem deliver_spec (env : Env) (payload : String) (w : World) (c : Conn) :
    ∃ step : List Call,
      (Send.deliver env payload w c).trace = w.trace ++ step ∧
      step.filterMap Call.postOf = [(c.ConnectionId, payload)] ∧
      (∀ i id d e, step[i]? = some (Call.PostToConnection id d (some e)) →
        isGone e = true → ∃ derr, step[i + 1]? = some (Call.DeleteItem id derr)) ∧
      (∀ id derr, Call.DeleteItem id derr ∈ step →
        ∃ d e, Call.PostToConnection id d (some e) ∈ step ∧ isGone e = true) ∧
      (Send.deliver env payload w c).table =
        w.table.filter (fun it => !(step.any (fun k => k.removes it))) ∧
      (∀ k ∈ step, (∃ id d e, k = Call.PostToConnection id d e) ∨
        (∃ id derr, k = Call.DeleteItem id derr)) := by
  cases hpost : env.postToConnection w c.ConnectionId payload with
  | none =>
    refine ⟨[Call.PostToConnection c.ConnectionId payload none], ?_, ?_, ?_, ?_, ?_,
      by intro k hk; simp at hk; exact Or.inl ⟨_, _, _, hk⟩⟩
    · simp [Send.deliver, hpost]
    · simp [Call.postOf]
    · intro i id d e hi _
      match i with
      | 0 => simp at hi
      | n + 1 => simp at hi
    · intro id derr hmem
      simp at hmem
    · simp [Send.deliver, hpost, Call.removes]
  | some err =>
    cases hg : isGone err with
    | false =>
      refine ⟨[Call.PostToConnection c.ConnectionId payload (some err)], ?_, ?_, ?_, ?_, ?_,
        by intro k hk; simp at hk; exact Or.inl ⟨_, _, _, hk⟩⟩
      · simp [Send.deliver, hpost, hg]
      · simp [Call.postOf]
      · intro i id d e hi hge
        match i with
        | 0 =>
          simp at hi
          rw [← hi.2.2, hg] at hge
          exact Bool.noConfusion hge
        | n + 1 => simp at hi
      · intro id derr hmem
        simp at hmem
      · simp [Send.deliver, hpost, hg, Call.removes]
    | true =>
      refine ⟨[Call.PostToConnection c.ConnectionId payload (some err),
        Call.DeleteItem c.ConnectionId
          (env.deleteItemErr
            { w with trace := w.trace ++
                [Call.PostToConnection c.ConnectionId payload (some err)] }
            c.ConnectionId)], ?_, ?_, ?_, ?_, ?_, ?_⟩
      rotate_left 5
      · intro k hk
        simp at hk
        rcases hk with hk | hk
        · exact Or.inl ⟨_, _, _, hk⟩
        · exact Or.inr ⟨_, _, hk⟩
      · simp [Send.deliver, hpost, hg, ddbDeleteItem]
      · simp [Call.postOf]
      · intro i id d e hi _
        match i with
        | 0 =>
          simp at hi
          rw [← hi.1]
          exact ⟨_, rfl⟩
        | 1 => simp at hi
        | n + 2 => simp at hi
      · intro id derr hmem
        simp at hmem
        exact ⟨payload, err, by simp [hmem.1], hg⟩
      · simp only [Send.deliver, hpost, hg, ddbDeleteItem, if_true]
        cases hd : env.deleteItemErr
            { w with trace := w.trace ++
                [Call.PostToConnection c.ConnectionId payload (some err)] }
            c.ConnectionId with
        | none =>
          simp only [Table.deleteItem]
          apply List.filter_congr
          intro it _
          simp [Call.removes, bne]
        | some e =>
          simp [Call.removes]

/-- The loop over the members: the calls it makes and the table it leaves.
There is one delivery attempt per member, in order, all with the same
payload; every gone delivery is followed at once by a delete of the same key;
deletes are only issued for gone deliveries; and the final table is the
initial one without the items removed by the successful deletes. -/
theorem loop_spec (env : Env) (payload : String) (cons : List Conn) (w : World) :
    ∃ new : List Call,
      (cons.foldl (Send.deliver env payload) w).trace = w.trace ++ new ∧
      new.filterMap Call.postOf = cons.map (fun c => (c.ConnectionId, payload)) ∧
      (∀ i id d e, new[i]? = some (Call.PostToConnection id d (some e)) →
        isGone e = true → ∃ derr, new[i + 1]? = some (Call.DeleteItem id derr)) ∧
      (∀ id derr, Call.DeleteItem id derr ∈ new →
        ∃ d e, Call.PostToConnection id d (some e) ∈ new ∧ isGone e = true) ∧
      (cons.foldl (Send.deliver env payload) w).table =
        w.table.filter (fun it => !(new.any (fun k => k.removes it))) ∧
      (∀ k ∈ new, (∃ id d e, k = Call.PostToConnection id d e) ∨
        (∃ id derr, k = Call.DeleteItem id derr)) := by
  induction cons generalizing w with
  | nil =>
    exact ⟨[], by simp, by simp, by intro i id d e hi; simp at hi,
      by intro id derr hmem; simp at hmem, by simp, by intro k hk; simp at hk⟩
  | cons c cs ih =>
    obtain ⟨step, hs1, hs2, hs3, hs4, hs5, hs6⟩ := deliver_spec env payload w c
    obtain ⟨rest, hr1, hr2, hr3, hr4, hr5, hr6⟩ := ih (Send.deliver env payload w c)
    refine ⟨step ++ rest, ?_, ?_, prune_append step rest hs3 hr3, ?_, ?_, ?_⟩
    rotate_left 4
    · intro k hk
      rcases List.mem_append.mp hk with h | h
      · exact hs6 k h
      · exact hr6 k h
    · rw [List.foldl_cons, hr1, hs1, List.append_assoc]
    · rw [List.filterMap_append, hs2, hr2]; rfl
    · intro id derr hmem
      rcases List.mem_append.mp hmem with h | h
      · obtain ⟨d, e, hm, hg⟩ := hs4 id derr h
        exact ⟨d, e, List.mem_append_left _ hm, hg⟩
      · obtain ⟨d, e, hm, hg⟩ := hr4 id derr h
        exact ⟨d, e, List.mem_append_right _ hm, hg⟩
    · rw [List.foldl_cons, hr5, hs5, List.filter_filter]
      apply List.filter_congr
      intro it _
      simp only [List.any_append, Bool.not_or]
      exact Bool.and_comm _ _

/-! ## send: the handler -/

/-- The handler when the query and the decoding succeed: status 200, body
`ok`, and the world the loop leaves. -/
theorem send_of_resolved (env : Env) (w : World) (req : Request)
    (items : List Item) (cons : List Conn)
    (hq : env.query w (Send.room (env.jsonUnmarshal req.Body)) = .ok items)
    (hu : env.unmarshalListOfMaps items = .ok cons) :
    Send.handler env w req =
      { response := Send.resp 200 "ok", err := none,
        world := cons.foldl
          (Send.deliver env (env.jsonMarshal
            (Send.message (Send.room (env.jsonUnmarshal req.Body))
              (env.jsonUnmarshal req.Body).UserID (env.jsonUnmarshal req.Body).Text)))
          { w with trace := w.trace ++
              [Call.Query (Send.room (env.jsonUnmarshal req.Body)) none] } } := by
  unfold Send.handler
  simp only [hq, hu]

/-- The calls of a send whose membership resolved, and the table it leaves. -/
theorem send_spec (env : Env) (w : World) (req : Request)
    (items : List Item) (cons : List Conn)
    (hq : env.query w (Send.room (env.jsonUnmarshal req.Body)) = .ok items)
    (hu : env.unmarshalListOfMaps items = .ok cons) :
    ∃ new : List Call,
      (Send.handler env w req).world.trace =
        w.trace ++ Call.Query (Send.room (env.jsonUnmarshal req.Body)) none :: new ∧
      new.filterMap Call.postOf = cons.map (fun c => (c.ConnectionId,
        env.jsonMarshal (Send.message (Send.room (env.jsonUnmarshal req.Body))
          (env.jsonUnmarshal req.Body).UserID (env.jsonUnmarshal req.Body).Text))) ∧
      (∀ i id d e, new[i]? = some (Call.PostToConnection id d (some e)) →
        isGone e = true → ∃ derr, new[i + 1]? = some (Call.DeleteItem id derr)) ∧
      (∀ id derr, Call.DeleteItem id derr ∈ new →
        ∃ d e, Call.PostToConnection id d (some e) ∈ new ∧ isGone e = true) ∧
      (Send.handler env w req).world.table =
        w.table.filter (fun it => !(new.any (fun k => k.removes it))) ∧
      (∀ k ∈ new, (∃ id d e, k = Call.PostToConnection id d e) ∨
        (∃ id derr, k = Call.DeleteItem id derr)) := by
  rw [send_of_resolved env w req items cons hq hu]
  obtain ⟨new, h1, h2, h3, h4, h5, h6⟩ := loop_spec env
    (env.jsonMarshal (Send.message (Send.room (env.jsonUnmarshal req.Body))
      (env.jsonUnmarshal req.Body).UserID (env.jsonUnmarshal req.Body).Text)) cons
    { w with trace := w.trace ++ [Call.Query (Send.room (env.jsonUnmarshal req.Body)) none] }
  refine ⟨new, ?_, h2, h3, h4, ?_, h6⟩
  · simp only [h1, List.append_assoc, List.singleton_append]
  · simp only [h5]

/-- A delivery attempt found in the trace of the loop is addressed to a
member. -/
theorem post_mem_member (new : List Call) (cons : List Conn) (payload : String)
    (hposts : new.filterMap Call.postOf = cons.map (fun c => (c.ConnectionId, payload)))
    (id d : String) (e : Option GoError) (hmem : Call.PostToConnection id d e ∈ new) :
    d = payload ∧ ∃ c ∈ cons, c.ConnectionId = id := by
  have h : (id, d) ∈ new.filterMap Call.postOf :=
    List.mem_filterMap.mpr ⟨_, hmem, rfl⟩
  rw [hposts, List.mem_map] at h
  obtain ⟨c, hc, heq⟩ := h
  have h1 := congrArg Prod.fst heq
  have h2 := congrArg Prod.snd heq
  exact ⟨h2.symm, c, hc, h1⟩

/-- Every member gets a delivery attempt in the trace of the loop. -/
theorem member_post_mem (new : List Call) (cons : List Conn) (payload : String)
    (hposts : new.filterMap Call.postOf = cons.map (fun c => (c.ConnectionId, payload)))
    (c : Conn) (hc : c ∈ cons) :
    ∃ e, Call.PostToConnection c.ConnectionId payload e ∈ new := by
  have h : (c.ConnectionId, payload) ∈ new.filterMap Call.postOf := by
    rw [hposts]; exact List.mem_map.mpr ⟨c, hc, rfl⟩
  obtain ⟨a, ha, hpa⟩ := List.mem_filterMap.mp h
  cases a with
  | PostToConnection id d e =>
    simp only [Call.postOf, Option.some.injEq, Prod.mk.injEq] at hpa
    exact ⟨e, by rw [← hpa.1, ← hpa.2]; exact ha⟩
  | Query r e => simp [Call.postOf] at hpa
  | PutItem it e => simp [Call.postOf] at hpa
  | DeleteItem k e => simp [Call.postOf] at hpa

/-- An item with key `id` is removed by the calls exactly when one of them is
a successful delete of `id`. -/
theorem any_removes_iff (new : List Call) (it : Item) (id : String)
    (hkey : it.key = some (AttributeValue.S id)) :
    new.any (fun k => k.removes it) = true ↔ Call.DeleteItem id none ∈ new := by
  rw [List.any_eq_true]
  constructor
  · rintro ⟨k, hk, hrem⟩
    cases k with
    | DeleteItem key e =>
      cases e with
      | none =>
        simp only [Call.removes, hkey, beq_iff_eq, Option.some.injEq,
          AttributeValue.S.injEq] at hrem
        rw [hrem]; exact hk
      | some e => simp [Call.removes] at hrem
    | Query r e => simp [Call.removes] at hrem
    | PutItem i e => simp [Call.removes] at hrem
    | PostToConnection i d e => simp [Call.removes] at hrem
  · intro h
    exact ⟨_, h, by simp [Call.removes, hkey]⟩

/-- C1: whenever the room-index query returns without error and its items
decode, the send handler returns status 200 with body `ok` and a nil Go
error, whatever the deliveries and the prune deletes return. -/
theorem send_ok_of_membership_resolved (env : Env) (w : World) (req : Request)
    (items : List Item) (cons : List Conn)
    (hq : env.query w (Send.room (env.jsonUnmarshal req.Body)) = .ok items)
    (hu : env.unmarshalListOfMaps items = .ok cons) :
    (Send.handler env w req).response = { StatusCode := 200, Body := "ok" } ∧
    (Send.handler env w req).err = none := by
  rw [send_of_resolved env w req items cons hq hu]
  exact ⟨rfl, rfl⟩

/-- C1, at concrete inputs: a room of three members whose second delivery
times out, and a room whose second member is gone while deletes fail. -/
theorem send_ok_of_membership_resolved_witness :
    (Send.handler Sample.env Sample.worldT
        { ConnectionID := "A", Body := Sample.bodyNoRoom }).response =
      { StatusCode := 200, Body := "ok" } ∧
    (Send.handler Sample.envNoDelete Sample.world
        { ConnectionID := "A", Body := Sample.bodyNoRoom }).response =
      { StatusCode := 200, Body := "ok" } ∧
    (Send.handler Sample.env Sample.worldT
        { ConnectionID := "A", Body := Sample.bodyNoRoom }).world.table =
      Sample.worldT.table :=
  ⟨(send_ok_of_membership_resolved Sample.env Sample.worldT
      { ConnectionID := "A", Body := Sample.bodyNoRoom }
      Sample.worldT.table
      [{ ConnectionId := "A", RoomId := "lobby" }, { ConnectionId := "T", RoomId := "lobby" },
        { ConnectionId := "C", RoomId := "lobby" }] rfl rfl).1,
   (send_ok_of_membership_resolved Sample.envNoDelete Sample.world
      { ConnectionID := "A", Body := Sample.bodyNoRoom }
      Sample.world.table
      [{ ConnectionId := "A", RoomId := "lobby" }, { ConnectionId := "B", RoomId := "lobby" },
        { ConnectionId := "C", RoomId := "lobby" }] rfl rfl).1,
   by decide⟩

/-- C2: if the room-index query returns an error, the send handler returns
status 500 with the error text as body and a nil Go error; the only call it
makes is the query, so there is no delivery attempt and no delete, and the
table is unchanged. -/
theorem send_query_error_fatal (env : Env) (w : World) (req : Request) (msg : String)
    (hq : env.query w (Send.room (env.jsonUnmarshal req.Body)) = .error msg) :
    (Send.handler env w req).response = { StatusCode := 500, Body := msg } ∧
    (Send.handler env w req).err = none ∧
    (Send.handler env w req).world.trace =
      w.trace ++ [Call.Query (Send.room (env.jsonUnmarshal req.Body)) (some msg)] ∧
    ((Send.handler env w req).world.trace.drop w.trace.length).filterMap Call.postOf = [] ∧
    ((Send.handler env w req).world.trace.drop w.trace.length).filter Call.isDelete = [] ∧
    (Send.handler env w req).world.table = w.table := by
  have h : Send.handler env w req =
      { response := Send.resp 500 msg, err := none,
        world := { w with trace := w.trace ++
          [Call.Query (Send.room (env.jsonUnmarshal req.Body)) (some msg)] } } := by
    unfold Send.handler
    simp only [hq]
  rw [h]
  refine ⟨rfl, rfl, rfl, ?_, ?_, rfl⟩
  · simp [Call.postOf]
  · simp [Call.isDelete]

/-- C2, at a concrete input: with the registry unavailable a send to the
three registered members makes no delivery attempt. -/
theorem send_query_error_fatal_witness :
    (Send.handler Sample.envDown Sample.world
        { ConnectionID := "A", Body := Sample.bodyNoRoom }).response =
      { StatusCode := 500, Body := "registry unavailable" } ∧
    (Send.handler Sample.envDown Sample.world
        { ConnectionID := "A", Body := Sample.bodyNoRoom }).world.trace =
      [Call.Query "lobby" (some "registry unavailable")] ∧
    (Send.handler Sample.envDown Sample.world
        { ConnectionID := "A", Body := Sample.bodyNoRoom }).world.table =
      [Sample.entry "A", Sample.entry "B", Sample.entry "C"] :=
  ⟨(send_query_error_fatal Sample.envDown Sample.world
      { ConnectionID := "A", Body := Sample.bodyNoRoom } "registry unavailable" rfl).1,
   by decide,
   (send_query_error_fatal Sample.envDown Sample.world
      { ConnectionID := "A", Body := Sample.bodyNoRoom } "registry unavailable" rfl).2.2.2.2.2⟩

/-- C3: in a send whose membership resolved to `cons`, every member gets a
delivery attempt; every delivery attempt whose error is classified gone is
followed at once by a `DeleteItem` keyed by the same connection id; and when
a delete of an id returned no error, the table holds no entry for that id
once the handler returns. -/
theorem send_prunes_gone (env : Env) (w : World) (req : Request)
    (items : List Item) (cons : List Conn)
    (hq : env.query w (Send.room (env.jsonUnmarshal req.Body)) = .ok items)
    (hu : env.unmarshalListOfMaps items = .ok cons) :
    ∃ new : List Call,
      (Send.handler env w req).world.trace =
        w.trace ++ Call.Query (Send.room (env.jsonUnmarshal req.Body)) none :: new ∧
      (∀ c ∈ cons, ∃ d e, Call.PostToConnection c.ConnectionId d e ∈ new) ∧
      (∀ c ∈ cons, ∀ i d e,
        new[i]? = some (Call.PostToConnection c.ConnectionId d (some e)) →
        isGone e = true →
        ∃ derr, new[i + 1]? = some (Call.DeleteItem c.ConnectionId derr)) ∧
      (∀ c ∈ cons, Call.DeleteItem c.ConnectionId none ∈ new →
        (Send.handler env w req).world.table.entries c.ConnectionId = []) := by
  obtain ⟨new, h1, h2, h3, _, h5, _⟩ := send_spec env w req items cons hq hu
  refine ⟨new, h1, ?_, ?_, ?_⟩
  · intro c hc
    obtain ⟨e, he⟩ := member_post_mem new cons _ h2 c hc
    exact ⟨_, e, he⟩
  · intro c _ i d e hi hg
    exact h3 i c.ConnectionId d e hi hg
  · intro c _ hdel
    rw [h5]
    unfold Table.entries
    rw [List.filter_filter, List.filter_eq_nil_iff]
    intro it _
    cases hk : (it.key == some (AttributeValue.S c.ConnectionId))
    · simp
    · have hkey := beq_iff_eq.mp hk
      have := (any_removes_iff new it c.ConnectionId hkey).mpr hdel
      simp [this]

/-- C3, at a concrete input: `A`, `B`, `C` are registered in `lobby` and `B`
is gone; after the send `B` has no entry and a query of `lobby` returns
exactly `A` and `C`. -/
theorem send_prunes_gone_witness :
    (Send.handler Sample.env Sample.world
        { ConnectionID := "A", Body := Sample.bodyNoRoom }).world.table.entries "B" = [] ∧
    (Send.handler Sample.env Sample.world
        { ConnectionID := "A", Body := Sample.bodyNoRoom }).world.table.queryRoomIndex "lobby" =
      [Sample.entry "A", Sample.entry "C"] := by
  obtain ⟨new, htr, _, _, hdel⟩ := send_prunes_gone Sample.env Sample.world
    { ConnectionID := "A", Body := Sample.bodyNoRoom } Sample.world.table
    [{ ConnectionId := "A", RoomId := "lobby" }, { ConnectionId := "B", RoomId := "lobby" },
      { ConnectionId := "C", RoomId := "lobby" }] rfl rfl
  have hconc : (Send.handler Sample.env Sample.world
      { ConnectionID := "A", Body := Sample.bodyNoRoom }).world.trace =
      [Call.Query "lobby" none,
       Call.PostToConnection "A" "type=message;roomId=lobby;userId=u1;text=hi" none,
       Call.PostToConnection "B" "type=message;roomId=lobby;userId=u1;text=hi"
         (some Sample.goneErr),
       Call.DeleteItem "B" none,
       Call.PostToConnection "C" "type=message;roomId=lobby;userId=u1;text=hi" none] := by
    decide
  rw [hconc] at htr
  have hnew : Call.DeleteItem "B" none ∈ new := by
    have h := (List.cons.inj htr).2
    rw [← h]
    decide
  exact ⟨hdel { ConnectionId := "B", RoomId := "lobby" } (by decide) hnew, by decide⟩

/-- C4: in a send whose membership resolved to `cons`, for every connection
id none of whose delivery attempts returned an error classified gone (each
succeeded or failed otherwise), no `DeleteItem` is issued for that id and its
entries are the same after the send as before, whatever happens to the other
members. No call of the send is a `PutItem`, the final table is a sublist of
the initial one (nothing is added or modified), and every item removed has
the connection id of a member one of whose deliveries was classified gone. -/
theorem send_keeps_unless_gone (env : Env) (w : World) (req : Request)
    (items : List Item) (cons : List Conn)
    (hq : env.query w (Send.room (env.jsonUnmarshal req.Body)) = .ok items)
    (hu : env.unmarshalListOfMaps items = .ok cons) :
    ∃ new : List Call,
      (Send.handler env w req).world.trace =
        w.trace ++ Call.Query (Send.room (env.jsonUnmarshal req.Body)) none :: new ∧
      (∀ id : String,
        (∀ d e, Call.PostToConnection id d (some e) ∈ new → isGone e = false) →
        (∀ derr, Call.DeleteItem id derr ∉ new) ∧
        (Send.handler env w req).world.table.entries id = w.table.entries id) ∧
      (∀ item err, Call.PutItem item err ∉ new) ∧
      (Send.handler env w req).world.table.Sublist w.table ∧
      (∀ it ∈ w.table, it ∉ (Send.handler env w req).world.table →
        ∃ c ∈ cons, ∃ d e, it.key = some (AttributeValue.S c.ConnectionId) ∧
          Call.PostToConnection c.ConnectionId d (some e) ∈ new ∧ isGone e = true) := by
  obtain ⟨new, h1, h2, _, h4, h5, h6⟩ := send_spec env w req items cons hq hu
  have hnodel : ∀ id : String,
      (∀ d e, Call.PostToConnection id d (some e) ∈ new → isGone e = false) →
      ∀ derr, Call.DeleteItem id derr ∉ new := by
    intro id hng derr hmem
    obtain ⟨d, e, hp, hg⟩ := h4 id derr hmem
    rw [hng d e hp] at hg
    exact Bool.noConfusion hg
  refine ⟨new, h1, ?_, ?_, ?_, ?_⟩
  · intro id hng
    refine ⟨hnodel id hng, ?_⟩
    rw [h5]
    unfold Table.entries
    rw [List.filter_filter]
    apply List.filter_congr
    intro it _
    cases hk : (it.key == some (AttributeValue.S id))
    · simp
    · have hkey := beq_iff_eq.mp hk
      have hnot : ¬ (new.any (fun k => k.removes it) = true) := fun h =>
        hnodel id hng none ((any_removes_iff new it id hkey).mp h)
      simp [Bool.eq_false_iff.mpr hnot]
  · intro item err hmem
    rcases h6 _ hmem with ⟨id, d, e, heq⟩ | ⟨id, derr, heq⟩
    · exact Call.noConfusion heq
    · exact Call.noConfusion heq
  · rw [h5]; exact List.filter_sublist _
  · intro it hit hnot
    rw [h5, List.mem_filter] at hnot
    have hrem : new.any (fun k => k.removes it) = true := by
      by_contra hc
      exact hnot ⟨hit, by simp [Bool.eq_false_iff.mpr hc]⟩
    obtain ⟨k, hk, hkrem⟩ := List.any_eq_true.mp hrem
    cases k with
    | DeleteItem key e =>
      cases e with
      | none =>
        have hkey : it.key = some (AttributeValue.S key) := by
          simpa [Call.removes] using hkrem
        obtain ⟨d, e, hp, hg⟩ := h4 key none hk
        obtain ⟨_, c, hc, hcid⟩ := post_mem_member new cons _ h2 key d (some e) hp
        exact ⟨c, hc, d, e, by rw [hcid]; exact hkey, by rw [hcid]; exact hp, hg⟩
      | some e => simp [Call.removes] at hkrem
    | Query r e => simp [Call.removes] at hkrem
    | PutItem i e => simp [Call.removes] at hkrem
    | PostToConnection i d e => simp [Call.removes] at hkrem

/-- C4, at a concrete input: `A`, `T`, `C` are registered in `lobby` and the
delivery to `T` times out; no delete is issued for `T` and its entry is the
one it had. -/
theorem send_keeps_unless_gone_witness :
    (Send.handler Sample.env Sample.worldT
        { ConnectionID := "A", Body := Sample.bodyNoRoom }).world.table.entries "T" =
      [Sample.entry "T"] ∧
    (Send.handler Sample.env Sample.worldT
        { ConnectionID := "A", Body := Sample.bodyNoRoom }).world.trace.filter Call.isDelete =
      [] := by
  obtain ⟨new, htr, hkeep, _, _, _⟩ := send_keeps_unless_gone Sample.env Sample.worldT
    { ConnectionID := "A", Body := Sample.bodyNoRoom } Sample.worldT.table
    [{ ConnectionId := "A", RoomId := "lobby" }, { ConnectionId := "T", RoomId := "lobby" },
      { ConnectionId := "C", RoomId := "lobby" }] rfl rfl
  have hconc : (Send.handler Sample.env Sample.worldT
      { ConnectionID := "A", Body := Sample.bodyNoRoom }).world.trace =
      [Call.Query "lobby" none,
       Call.PostToConnection "A" "type=message;roomId=lobby;userId=u1;text=hi" none,
       Call.PostToConnection "T" "type=message;roomId=lobby;userId=u1;text=hi"
         (some Sample.timeoutErr),
       Call.PostToConnection "C" "type=message;roomId=lobby;userId=u1;text=hi" none] := by
    decide
  rw [hconc] at htr
  have hnew := (List.cons.inj htr).2
  have hT : ∀ d e, Call.PostToConnection "T" d (some e) ∈ new → isGone e = false := by
    intro d e hmem
    rw [← hnew] at hmem
    simp at hmem
    rw [hmem.2]
    decide
  refine ⟨?_, by decide⟩
  rw [(hkeep "T" hT).2]
  decide

/-- C5: a send request whose body decodes with an empty `RoomID` (the field is
missing or the empty string) yields the same outcome as the request with the
same action, text and user id whose `RoomID` is `lobby`: the same response,
the same Go error, the same trace of calls (query of room `lobby`, delivery
attempts and payloads, deletes) and the same table. -/
theorem send_default_room (env : Env) (w : World) (req1 req2 : Request)
    (action text userID : String)
    (h1 : env.jsonUnmarshal req1.Body =
      { Action := action, RoomID := "", Text := text, UserID := userID })
    (h2 : env.jsonUnmarshal req2.Body =
      { Action := action, RoomID := "lobby", Text := text, UserID := userID }) :
    Send.handler env w req1 = Send.handler env w req2 ∧
    Send.room (env.jsonUnmarshal req1.Body) = "lobby" ∧
    (∃ (err : Option String) (rest : List Call), (Send.handler env w req1).world.trace =
      w.trace ++ Call.Query "lobby" err :: rest) := by
  have hr1 : Send.room (env.jsonUnmarshal req1.Body) = "lobby" := by
    rw [h1]; rfl
  have hr2 : Send.room (env.jsonUnmarshal req2.Body) = "lobby" := by
    rw [h2]; rfl
  refine ⟨?_, hr1, ?_⟩
  · unfold Send.handler
    simp only [hr1, hr2]
    rw [h1, h2]
  · cases hq : env.query w "lobby" with
    | error e =>
      refine ⟨some e, [], ?_⟩
      unfold Send.handler
      simp only [hr1, hq]
    | ok items =>
      cases hu : env.unmarshalListOfMaps items with
      | error e =>
        refine ⟨none, [], ?_⟩
        unfold Send.handler
        simp only [hr1, hq, hu]
      | ok cons =>
        rw [← hr1] at hq
        obtain ⟨new, hn, _⟩ := send_spec env w req1 items cons hq hu
        exact ⟨none, new, by rw [hn, hr1]⟩

/-- C5, at a concrete input: the sample request without `roomId` and the one
with `roomId` `lobby` have the same outcome. -/
theorem send_default_room_witness :
    Send.handler Sample.env Sample.world { ConnectionID := "A", Body := Sample.bodyNoRoom } =
      Send.handler Sample.env Sample.world { ConnectionID := "A", Body := Sample.bodyLobby } :=
  (send_default_room Sample.env Sample.world
    { ConnectionID := "A", Body := Sample.bodyNoRoom }
    { ConnectionID := "A", Body := Sample.bodyLobby } "message" "hi" "u1"
    (by decide) (by decide)).1

/-- C6: in a send whose membership resolved to `cons`, after the query the
handler makes only `PostToConnection` and `DeleteItem` calls, and the
delivery attempts, in order, are exactly one per element of `cons`, each
addressed to that element's connection id and each carrying the same payload:
the JSON encoding of the map with the four keys `type` (`message`), `roomId`
(the effective room), `userId` and `text` of the request. This holds whatever
the deliveries return, so a failed or gone delivery skips no later member. -/
theorem send_fanout_payload (env : Env) (w : World) (req : Request)
    (items : List Item) (cons : List Conn)
    (hq : env.query w (Send.room (env.jsonUnmarshal req.Body)) = .ok items)
    (hu : env.unmarshalListOfMaps items = .ok cons) :
    ∃ new : List Call,
      (Send.handler env w req).world.trace =
        w.trace ++ Call.Query (Send.room (env.jsonUnmarshal req.Body)) none :: new ∧
      new.filterMap Call.postOf = cons.map (fun c => (c.ConnectionId,
        env.jsonMarshal
          [("type", "message"),
           ("roomId", if (env.jsonUnmarshal req.Body).RoomID = "" then "lobby"
              else (env.jsonUnmarshal req.Body).RoomID),
           ("userId", (env.jsonUnmarshal req.Body).UserID),
           ("text", (env.jsonUnmarshal req.Body).Text)])) ∧
      (new.filterMap Call.postOf).length = cons.length ∧
      (∀ k ∈ new, (∃ id d e, k = Call.PostToConnection id d e) ∨
        (∃ id derr, k = Call.DeleteItem id derr)) := by
  obtain ⟨new, h1, h2, _, _, _, h6⟩ := send_spec env w req items cons hq hu
  have hroom : Send.room (env.jsonUnmarshal req.Body) =
      (if (env.jsonUnmarshal req.Body).RoomID = "" then "lobby"
        else (env.jsonUnmarshal req.Body).RoomID) := by
    unfold Send.room
    by_cases h : (env.jsonUnmarshal req.Body).RoomID = "" <;> simp [h]
  refine ⟨new, h1, ?_, ?_, h6⟩
  · rw [h2, ← hroom]; rfl
  · rw [h2, List.length_map]

/-- C6, at a concrete input: with `A`, `B`, `C` in `lobby` and `B` gone, the
delivery attempts are to `A`, `B`, `C`, all with the same payload. -/
theorem send_fanout_payload_witness :
    ((Send.handler Sample.env Sample.world
        { ConnectionID := "A", Body := Sample.bodyNoRoom }).world.trace.filterMap
          Call.postOf) =
      [("A", "type=message;roomId=lobby;userId=u1;text=hi"),
       ("B", "type=message;roomId=lobby;userId=u1;text=hi"),
       ("C", "type=message;roomId=lobby;userId=u1;text=hi")] := by
  obtain ⟨new, htr, hposts, _, _⟩ := send_fanout_payload Sample.env Sample.world
    { ConnectionID := "A", Body := Sample.bodyNoRoom } Sample.world.table
    [{ ConnectionId := "A", RoomId := "lobby" }, { ConnectionId := "B", RoomId := "lobby" },
      { ConnectionId := "C", RoomId := "lobby" }] rfl rfl
  rw [htr]
  have hq : Call.postOf (Call.Query (Send.room (Sample.env.jsonUnmarshal
      ({ ConnectionID := "A", Body := Sample.bodyNoRoom } : Request).Body)) none) = none := rfl
  rw [show Sample.world.trace = [] from rfl, List.nil_append, List.filterMap_cons, hq, hposts]
  decide

end ChatApp

